import Mathlib

/-!
Shallow embedding of the CogMyra RAG proxy (Cloudflare Worker).

The worker loads a precomputed embedding index from a remote URL, ranks its
records by cosine similarity against a query embedding, assembles a grounded
context block with citation tags, and forwards a prompt to an upstream chat
completion endpoint behind a shared-key access gate.

JavaScript floating-point numbers are idealised as real numbers (`ℝ`);
`Math.sqrt` is `Real.sqrt`.  JavaScript's stable in-place `sort` with the
comparator `(a, b) => b.score - a.score` is modelled as `List.mergeSort` with
the boolean relation `b.score ≤ a.score` (stable, descending).  Network
effects (index fetch, embedding call, completion call, clock, SHA-256) are
supplied as explicit oracles, and each handler returns its response together
with the updated process state and the list of upstream calls it made.
-/

namespace CW

/-- An index record: one text chunk with its precomputed embedding. -/
structure RagRecord where
  id : String
  file : String
  chunkIndex : Nat
  text : String
  embedding : List ℝ

/-- The embedding index document fetched from the configured URL. -/
structure RagIndex where
  created : String
  model : String
  dims : Nat
  count : Nat
  records : List RagRecord

/-- The process-wide mutable state (`STATE` in the worker). -/
structure WorkerState where
  index : Option RagIndex
  indexLoadedAt : Option String
  indexUrl : Option String
  loadError : Option String

/-- `dot`: sum of pairwise products (the JS loop over `a.length`). -/
def dot (a b : List ℝ) : ℝ :=
  (List.zipWith (· * ·) a b).sum

/-- `norm`: Euclidean norm, `Math.sqrt` of the sum of squares. -/
noncomputable def norm (a : List ℝ) : ℝ :=
  Real.sqrt ((a.map fun x => x * x).sum)

/-- `cosSim`: cosine similarity with the explicit zero guard
`return n ? d / n : 0`. -/
noncomputable def cosSim (a b : List ℝ) : ℝ :=
  let d := dot a b
  let n := norm a * norm b
  if n = 0 then 0 else d / n

/-- A scored record (`{ rec, score }` in the worker). -/
structure RankedMatch where
  record : RagRecord
  score : ℝ

/-- The comparator underlying the JS stable sort with
`(a, b) => b.score - a.score`: `a` may stay before `b` iff
`b.score - a.score ≤ 0`. -/
noncomputable def rankLE (a b : RankedMatch) : Bool :=
  decide (b.score ≤ a.score)

/-- The scored list built by `rank` before sorting. -/
noncomputable def scoredOf (envIndex : RagIndex) (qEmb : List ℝ) : List RankedMatch :=
  envIndex.records.map fun r => ⟨r, cosSim qEmb r.embedding⟩

/-- `rank`: score every record, sort descending (stably), truncate with
`slice(0, Math.min(k, scored.length))`. -/
noncomputable def rank (envIndex : RagIndex) (qEmb : List ℝ) (k : Nat) : List RankedMatch :=
  let scored := scoredOf envIndex qEmb
  let sorted := scored.mergeSort rankLE
  sorted.take (min k sorted.length)

/-- `citeTag`: the literal citation tag appended to each chunk. -/
def citeTag (file : String) (chunkIndex : Nat) : String :=
  "[file: " ++ file ++ ", chunk: " ++ toString chunkIndex ++ "]"

/-- One block of `buildRagContext`: header line, raw chunk text, citation tag. -/
def chunkBlock (r : RagRecord) : String :=
  "## " ++ r.file ++ " — chunk " ++ toString r.chunkIndex ++ "\n"
    ++ r.text ++ "\n" ++ citeTag r.file r.chunkIndex

/-- `buildRagContext`: blocks joined with the `---` separator, in rank order. -/
def buildRagContext (top : List RankedMatch) : String :=
  String.intercalate "\n\n---\n\n" (top.map fun m => chunkBlock m.record)

/-- JSON values, as produced by `response.json()` and re-serialised by the
worker.  Numbers are idealised as reals. -/
inductive JVal where
  | null
  | bool (b : Bool)
  | num (x : ℝ)
  | str (s : String)
  | arr (xs : List JVal)
  | obj (fields : List (String × JVal))

/-- JavaScript truthiness of a JSON value. -/
noncomputable def jTruthy : JVal → Bool
  | .null => false
  | .bool b => b
  | .num x => decide (x ≠ 0)
  | .str s => s ≠ ""
  | .arr _ => true
  | .obj _ => true

/-- Property lookup on a JSON object (objects carry each key once). -/
def objGet (fields : List (String × JVal)) (k : String) : Option JVal :=
  (fields.find? fun p => p.1 == k).map (·.2)

/-- Property assignment: replace an existing key in place (as JS object
spread/literal updates do) or append a fresh key at the end. -/
def objSet (fields : List (String × JVal)) (k : String) (v : JVal) : List (String × JVal) :=
  if fields.any (fun p => p.1 == k) then
    fields.map fun p => if p.1 == k then (k, v) else p
  else
    fields ++ [(k, v)]

/-- The key sequence of a JSON object. -/
def objKeys (fields : List (String × JVal)) : List String :=
  fields.map (·.1)

/-- The worker's environment bindings. -/
structure WEnv where
  OPENAI_API_KEY : String
  FRONTEND_APP_KEY : String
  INDEX_URL : String
  SYSTEM_PROMPT : Option String
  MODEL : Option String

/-- `env.MODEL || "gpt-5"`. -/
def modelOf (env : WEnv) : String :=
  match env.MODEL with
  | some s => if s = "" then "gpt-5" else s
  | none => "gpt-5"

/-- The fixed retrieval rules appended by `buildSystemPrompt` (already
trimmed, as the source trims the template literal). -/
def hardRule : String :=
  "You are a strict retrieval assistant.\n\nRULES:\n"
    ++ "- Answer using ONLY the retrieved chunks.\n"
    ++ "- Do not add meta text (no \"Goal\", \"Plan\", \"Check\", \"Next step\", \"Sources\").\n"
    ++ "- Preserve wording; lightly normalize capitalization/punctuation only if needed.\n"
    ++ "- Whenever you include content from a chunk, append an inline cite exactly like:\n"
    ++ "  [file: <file>, chunk: <chunkIndex>]\n"
    ++ "- If multiple chunks contribute, keep their cites near the lines they support.\n"
    ++ "- If the user asks beyond the retrieved chunks, say:\n"
    ++ "  \"Not in retrieved chunks.\" and stop.\n\nFORMAT:\n"
    ++ "- If the first chunk contains a heading, keep it on its own line.\n"
    ++ "- Then the exact sentences/lines from the chunks, in order of relevance, with cites."

/-- `buildSystemPrompt`: optional configured prefix followed by the rules. -/
def buildSystemPrompt (env : WEnv) : String :=
  let base := (env.SYSTEM_PROMPT.getD "").trim
  if base = "" then hardRule else base ++ "\n\n" ++ hardRule

/-- One conversation message. -/
structure ChatMessage where
  role : String
  content : String

/-- `userPromptFrom`: content of the most recent `user` message, else `""`. -/
def userPromptFrom (messages : List ChatMessage) : String :=
  match messages.reverse.find? fun m => m.role == "user" with
  | some m => m.content
  | none => ""

/-- `body?.messages ?? []` followed by use of the `{role, content}` fields:
a missing or unparsed body, a non-object body, or a missing/non-array
`messages` member all yield the empty history. -/
def jMessages : Option JVal → List ChatMessage
  | some (.obj fields) =>
    match objGet fields "messages" with
    | some (.arr xs) =>
      xs.map fun j =>
        match j with
        | .obj f =>
          ⟨(match objGet f "role" with | some (.str s) => s | _ => ""),
           (match objGet f "content" with | some (.str s) => s | _ => "")⟩
        | _ => ⟨"", ""⟩
    | _ => []
  | _ => []

/-- HTTP methods the worker distinguishes. -/
inductive Method where
  | GET
  | POST
  | OPTIONS
  | other (s : String)
deriving DecidableEq

/-- An inbound request, with its JSON body pre-parsed (`none` models a body
that `request.json()` fails to parse; the worker replaces it by `{}`). -/
structure WRequest where
  method : Method
  path : String
  origin : Option String
  appKey : Option String
  body : Option JVal

/-- The upstream world: index fetch outcome, embedding endpoint (keyed by the
input text), completion endpoint (keyed by system prompt, user prompt and
context), the clock, and SHA-256. -/
structure Upstream where
  fetchIndexResult : Except String RagIndex
  embedResult : String → Except String (List ℝ)
  chatResult : String → String → String → Except String (List (String × JVal))
  now : String
  sha : String → String

/-- An upstream call made while handling a request. -/
inductive UpstreamCall where
  | indexFetch (url : String)
  | embed (text : String)
  | completion (sys user context : String)

/-- The `rag` object of the health report. -/
structure RagReport where
  indexUrl : String
  loaded : Bool
  lastLoaded : Option String
  count : Nat
  dims : Option Nat
  embedModel : String
  error : Option String

/-- The health response payload. -/
structure HealthPayload where
  ok : Bool
  now : String
  model : String
  promptHash : String
  rag : RagReport

/-- Response bodies: plain text, the health JSON, the merged chat JSON, or
the empty preflight body. -/
inductive ResponseBody where
  | text (s : String)
  | healthJson (p : HealthPayload)
  | chatJson (fields : List (String × JVal))
  | empty

/-- An outbound response. -/
structure WResponse where
  status : Nat
  body : ResponseBody
  headers : List (String × String)

/-- The fixed CORS origin allow-list. -/
def ALLOW_ORIGIN : List String :=
  ["http://localhost:5500", "https://cogmyra.com", "https://www.cogmyra.com"]

/-- `cors`: allow-origin echoes a listed origin, else falls back to
`ALLOW_ORIGIN[1]`. -/
def cors (origin : Option String) : List (String × String) :=
  let allow :=
    match origin with
    | some o => if ALLOW_ORIGIN.contains o then o else ALLOW_ORIGIN.getD 1 ""
    | none => ALLOW_ORIGIN.getD 1 ""
  [("access-control-allow-origin", allow),
   ("access-control-allow-headers", "Content-Type, Authorization, x-app-key"),
   ("access-control-allow-methods", "GET, POST, OPTIONS"),
   ("access-control-expose-headers", "X-CogMyra-Model, X-CogMyra-Prompt-Hash")]

/-- `textError`: plain-text response over CORS headers. -/
def textError (msg : String) (origin : Option String) (status : Nat) : WResponse :=
  { status := status
    body := .text msg
    headers := cors origin ++ [("content-type", "text/plain; charset=utf-8")] }

/-- The app-key gate condition `!appKey || appKey !== env.FRONTEND_APP_KEY`
(an absent or empty header is falsy). -/
def keyOk (appKey : Option String) (envKey : String) : Bool :=
  match appKey with
  | none => false
  | some k => if k = "" then false else k == envKey

/-- The citation objects merged into the chat response. -/
def citationsJson (top : List RankedMatch) : JVal :=
  .arr (top.map fun t =>
    .obj [("file", .str t.record.file),
          ("chunk", .num t.record.chunkIndex),
          ("score", .num t.score)])

/-- The merged chat payload
`{ ...openai, model: openai.model || env.MODEL || "gpt-5", ragUsed, ragChars,
ragCitations }`. -/
noncomputable def mergedPayload (openai : List (String × JVal)) (envModel : Option String)
    (ragUsed : Bool) (ragChars : Nat) (cites : JVal) : List (String × JVal) :=
  let fallback : JVal := .str (match envModel with
    | some s => if s = "" then "gpt-5" else s
    | none => "gpt-5")
  let m : JVal :=
    match objGet openai "model" with
    | some v => if jTruthy v then v else fallback
    | none => fallback
  objSet (objSet (objSet (objSet openai "model" m)
    "ragUsed" (.bool ragUsed)) "ragChars" (.num ragChars)) "ragCitations" cites

/-- The `/api/health` branch: URL-change reset, lazy load with an internal
try/catch, then the status report.  Total by construction — a fetch failure
is recorded in the state, never propagated. -/
def healthPath (origin : Option String) (env : WEnv) (st : WorkerState) (up : Upstream) :
    WResponse × WorkerState × List UpstreamCall :=
  let st1 : WorkerState :=
    if st.indexUrl ≠ some env.INDEX_URL then
      { index := none, indexLoadedAt := none, loadError := none,
        indexUrl := some env.INDEX_URL }
    else st
  let step : WorkerState × List UpstreamCall :=
    match st1.index with
    | none =>
      match up.fetchIndexResult with
      | .ok idx =>
        ({ st1 with index := some idx, indexLoadedAt := some up.now, loadError := none },
         [.indexFetch env.INDEX_URL])
      | .error e =>
        ({ st1 with loadError := some e }, [.indexFetch env.INDEX_URL])
    | some _ => (st1, [])
  let st2 := step.1
  let ph := up.sha (buildSystemPrompt env)
  let report : RagReport :=
    { indexUrl := env.INDEX_URL
      loaded := st2.index.isSome && !(match st2.loadError with
        | some e => decide (e ≠ "")
        | none => false)
      lastLoaded := st2.indexLoadedAt
      count := match st2.index with | some i => i.count | none => 0
      dims := st2.index.map (·.dims)
      embedModel := "text-embedding-3-large"
      error := st2.loadError }
  ({ status := 200
     body := .healthJson
       { ok := true, now := up.now, model := modelOf env, promptHash := ph, rag := report }
     headers := cors origin
       ++ [("X-CogMyra-Model", modelOf env), ("X-CogMyra-Prompt-Hash", ph)] },
   st2, step.2)

/-- The chat pipeline once an index is in hand: embed the query, rank,
assemble context, call the completion endpoint, merge RAG metadata.
Errors from the two upstream calls propagate to the outer catch, which
renders them as `Proxy error:` 500 responses. -/
noncomputable def chatCore (origin : Option String) (messages : List ChatMessage)
    (env : WEnv) (st : WorkerState) (idx : RagIndex) (up : Upstream)
    (calls0 : List UpstreamCall) : WResponse × WorkerState × List UpstreamCall :=
  let userQ := userPromptFrom messages
  match up.embedResult userQ with
  | .error e => (textError ("Proxy error: " ++ e) origin 500, st, calls0 ++ [.embed userQ])
  | .ok qEmb =>
    let top := rank idx qEmb 3
    let ragUsed := decide (0 < top.length)
    let ragChars := (top.map fun t => t.record.text.length).sum
    let context := buildRagContext top
    let sys := buildSystemPrompt env
    let ph := up.sha sys
    match up.chatResult sys userQ context with
    | .error e =>
      (textError ("Proxy error: " ++ e) origin 500, st,
       calls0 ++ [.embed userQ, .completion sys userQ context])
    | .ok openai =>
      ({ status := 200
         body := .chatJson (mergedPayload openai env.MODEL ragUsed ragChars
           (citationsJson top))
         headers := cors origin
           ++ [("X-CogMyra-Model", modelOf env), ("X-CogMyra-Prompt-Hash", ph)] },
       st,
       calls0 ++ [.embed userQ, .completion sys userQ context])

/-- The `/api/chat` branch: method check, body parse fallback, ensure-index
(fetching only when nothing is cached, with no URL comparison), then
`chatCore`.  A failed ensure-index fetch propagates to the outer catch. -/
noncomputable def chatPath (origin : Option String) (body : Option JVal) (method : Method)
    (env : WEnv) (st : WorkerState) (up : Upstream) :
    WResponse × WorkerState × List UpstreamCall :=
  if method ≠ .POST then (textError "Method Not Allowed" origin 405, st, [])
  else
    let messages := jMessages body
    match st.index with
    | none =>
      match up.fetchIndexResult with
      | .error e =>
        (textError ("Proxy error: " ++ e) origin 500, st, [.indexFetch env.INDEX_URL])
      | .ok idx =>
        chatCore origin messages env
          { st with index := some idx, indexLoadedAt := some up.now } idx up
          [.indexFetch env.INDEX_URL]
    | some idx => chatCore origin messages env st idx up []

/-- The worker's `fetch` handler: preflight, app-key gate, then routing. -/
noncomputable def workerFetch (req : WRequest) (env : WEnv) (st : WorkerState) (up : Upstream) :
    WResponse × WorkerState × List UpstreamCall :=
  if req.method = .OPTIONS then
    ({ status := 200, body := .empty, headers := cors req.origin }, st, [])
  else if !keyOk req.appKey env.FRONTEND_APP_KEY then
    (textError "Forbidden: bad or missing x-app-key" req.origin 403, st, [])
  else if req.path = "/api/health" then healthPath req.origin env st up
  else if req.path = "/api/chat" then chatPath req.origin req.body req.method env st up
  else (textError "Not Found" req.origin 404, st, [])

/-- Whether a call log contains an index fetch. -/
def hasIndexFetch (calls : List UpstreamCall) : Bool :=
  calls.any fun c => match c with | .indexFetch _ => true | _ => false

/-- The `rag` report carried by a health response, if any. -/
def ragOf (r : WResponse) : Option RagReport :=
  match r.body with
  | .healthJson p => some p.rag
  | _ => none

/-! Concrete fixtures used to exercise the definitions. -/

noncomputable def rT0 : RagRecord := ⟨"id0", "f0", 0, "t0", [1]⟩

noncomputable def rT1 : RagRecord := ⟨"id1", "f1", 1, "t1", [1]⟩

noncomputable def idxT : RagIndex := ⟨"2024", "text-embedding-3-large", 1, 2, [rT0, rT1]⟩

noncomputable def mT0 : RankedMatch := ⟨rT0, cosSim [(1 : ℝ)] rT0.embedding⟩

noncomputable def mT1 : RankedMatch := ⟨rT1, cosSim [(1 : ℝ)] rT1.embedding⟩

noncomputable def idxA : RagIndex := ⟨"t0", "m", 1, 1, [rT0]⟩

noncomputable def idxB : RagIndex := ⟨"t1", "m", 1, 1, [rT1]⟩

/-- A state whose snapshot was cached from source URL `"a"`. -/
noncomputable def stA : WorkerState := ⟨some idxA, some "t0", some "a", none⟩

/-- A state after a failed health load for URL `"b"`: no index, error set. -/
def stErr : WorkerState := ⟨none, none, some "b", some "boom"⟩

/-- An environment whose configured index URL is `"b"`. -/
def envB : WEnv := ⟨"sk", "key1", "b", none, none⟩

/-- Upstream oracles that all succeed. -/
noncomputable def upOk : Upstream :=
  ⟨.ok idxB, fun _ => .ok [1], fun _ _ _ => .ok [("id", .str "x")], "t1", fun _ => "h"⟩

/-- Upstream oracles whose index fetch fails. -/
noncomputable def upErr : Upstream :=
  ⟨.error "down", fun _ => .ok [1], fun _ _ _ => .ok [("id", .str "x")], "t1", fun _ => "h"⟩

/-- A well-formed chat request with the valid app key. -/
def reqChat : WRequest :=
  ⟨.POST, "/api/chat", none, some "key1", some (.obj [("messages", .arr [])])⟩

/-! Theorems. -/

/-- C1: for every index (whose `count` matches its record list, per the index
invariant) and every `k`, `rank` returns exactly `min k count` matches: an
empty index yields the empty list rather than an error, and `k > count`
yields exactly `count` matches. -/
theorem rank_returns_min_k_count (idx : RagIndex) (q : List ℝ) (k : Nat)
    (h : idx.count = idx.records.length) :
    (rank idx q k).length = min k idx.count
    ∧ (idx.count = 0 → rank idx q k = [])
    ∧ (idx.count < k → (rank idx q k).length = idx.count) := by
  have hlen : (rank idx q k).length = min k idx.records.length := by
    simp [rank, scoredOf]
  rw [← h] at hlen
  refine ⟨hlen, ?_, ?_⟩
  · intro h0
    have : (rank idx q k).length = 0 := by rw [hlen, h0]; simp
    exact List.length_eq_zero.mp this
  · intro hk
    rw [hlen]
    omega

/-- Witness for C1: a two-record index with `k = 5` returns
`min 5 2` matches. -/
theorem rank_returns_min_k_count_witness :
    idxT.count = idxT.records.length
    ∧ (rank idxT [(1 : ℝ)] 5).length = min 5 idxT.count :=
  ⟨rfl, (rank_returns_min_k_count idxT [(1 : ℝ)] 5 rfl).1⟩

/-- C2: the cosine-similarity guard: whenever either vector has zero norm the
score is exactly `0` (the division is guarded), and in particular every
comparison against a zero vector scores `0`. -/
theorem cosSim_zero_norm_guard (a b : List ℝ) :
    ((norm a = 0 ∨ norm b = 0) → cosSim a b = 0)
    ∧ ∀ d : Nat, cosSim a (List.replicate d 0) = 0 := by
  constructor
  · rintro (h | h) <;> simp [cosSim, h]
  · intro d
    have hz : norm (List.replicate d (0 : ℝ)) = 0 := by
      simp [norm]
    simp [cosSim, hz]

/-- Witness for C2: `[1]` against the zero vector `[0]` scores `0`. -/
theorem cosSim_zero_norm_guard_witness :
    norm [(0 : ℝ)] = 0 ∧ cosSim [(1 : ℝ)] [(0 : ℝ)] = 0 := by
  have hz : norm [(0 : ℝ)] = 0 := by simp [norm]
  exact ⟨hz, (cosSim_zero_norm_guard [(1 : ℝ)] [(0 : ℝ)]).1 (Or.inr hz)⟩

/-- The sort comparator is transitive. -/
theorem rankLE_trans : ∀ a b c : RankedMatch, rankLE a b → rankLE b c → rankLE a c := by
  intro a b c hab hbc
  simp only [rankLE, decide_eq_true_eq] at *
  exact le_trans hbc hab

/-- The sort comparator is total. -/
theorem rankLE_total : ∀ a b : RankedMatch, rankLE a b || rankLE b a := by
  intro a b
  simp only [rankLE, Bool.or_eq_true, decide_eq_true_eq]
  exact le_total b.score a.score

/-- C3: `rank` output is sorted in descending score order; the underlying
sort is stable (any two matches appearing in original order with equal
scores keep that order through the sort); and, the computation being pure,
repeated calls on the same index and query give the same result. -/
theorem rank_sorted_and_stable (idx : RagIndex) (q : List ℝ) (k : Nat) :
    (rank idx q k).Pairwise (fun a b => b.score ≤ a.score)
    ∧ (∀ a b : RankedMatch, a.score = b.score →
        List.Sublist [a, b] (scoredOf idx q) →
        List.Sublist [a, b] ((scoredOf idx q).mergeSort rankLE))
    ∧ rank idx q k = rank idx q k := by
  refine ⟨?_, ?_, rfl⟩
  · have hs := List.sorted_mergeSort rankLE_trans rankLE_total (scoredOf idx q)
    have hr : rank idx q k
        = ((scoredOf idx q).mergeSort rankLE).take
            (min k ((scoredOf idx q).mergeSort rankLE).length) := rfl
    rw [hr]
    have ht := hs.sublist
      (List.take_sublist (min k ((scoredOf idx q).mergeSort rankLE).length)
        ((scoredOf idx q).mergeSort rankLE))
    exact ht.imp fun h => by simpa [rankLE] using h
  · intro a b hab h
    exact List.pair_sublist_mergeSort rankLE_trans rankLE_total
      (by simp [rankLE, hab.ge]) h

/-- Witness for C3: two records with identical embeddings tie, and the tied
pair survives the sort in original order. -/
theorem rank_sorted_and_stable_witness :
    mT0.score = mT1.score
    ∧ List.Sublist [mT0, mT1] (scoredOf idxT [(1 : ℝ)])
    ∧ List.Sublist [mT0, mT1] ((scoredOf idxT [(1 : ℝ)]).mergeSort rankLE) := by
  have h1 : mT0.score = mT1.score := rfl
  have h2 : List.Sublist [mT0, mT1] (scoredOf idxT [(1 : ℝ)]) := by
    show List.Sublist [mT0, mT1] [mT0, mT1]
    exact List.Sublist.refl _
  exact ⟨h1, h2, (rank_sorted_and_stable idxT [(1 : ℝ)] 3).2.1 mT0 mT1 h1 h2⟩

/-- C4: the assembled context is the blocks of the matches in ranker order,
joined by the separator; the citation tag has the exact literal form
`[file: <file>, chunk: <chunkIndex>]`; and each match's block is a header
line naming the source file and chunk index, the raw chunk text, and one
trailing citation tag whose chunk number is that record's `chunkIndex`. -/
theorem buildRagContext_format (top : List RankedMatch) :
    buildRagContext top
      = String.intercalate "\n\n---\n\n" (top.map fun m => chunkBlock m.record)
    ∧ (∀ f n, citeTag f n = "[file: " ++ f ++ ", chunk: " ++ toString n ++ "]")
    ∧ (∀ m ∈ top, ∃ pre : String,
        chunkBlock m.record = pre ++ "\n" ++ citeTag m.record.file m.record.chunkIndex
        ∧ pre = "## " ++ m.record.file ++ " — chunk " ++ toString m.record.chunkIndex
            ++ "\n" ++ m.record.text) := by
  refine ⟨rfl, fun f n => rfl, fun m _ => ?_⟩
  exact ⟨"## " ++ m.record.file ++ " — chunk " ++ toString m.record.chunkIndex
      ++ "\n" ++ m.record.text, rfl, rfl⟩

/-- Witness for C4: the single-match context for `mT0` carries its trailing
citation tag. -/
theorem buildRagContext_format_witness :
    mT0 ∈ [mT0]
    ∧ ∃ pre : String,
        chunkBlock mT0.record = pre ++ "\n" ++ citeTag mT0.record.file mT0.record.chunkIndex
        ∧ pre = "## " ++ mT0.record.file ++ " — chunk " ++ toString mT0.record.chunkIndex
            ++ "\n" ++ mT0.record.text :=
  ⟨List.mem_singleton_self mT0,
   (buildRagContext_format [mT0]).2.2 mT0 (List.mem_singleton_self mT0)⟩

/-- Counterexample for C5: with an index cached from URL `"a"` and the
configured URL `"b"`, the chat path performs no index fetch, leaves the old
snapshot cached, and answers from it — the URL-change discard does not
happen on the chat path. -/
theorem chat_stale_cache_cex :
    stA.indexUrl ≠ some envB.INDEX_URL
    ∧ hasIndexFetch (workerFetch reqChat envB stA upOk).2.2 = false
    ∧ (workerFetch reqChat envB stA upOk).2.1 = stA
    ∧ (workerFetch reqChat envB stA upOk).2.2
        = [.embed "", .completion (buildSystemPrompt envB) "" (buildRagContext (rank idxA [1] 3))]
    ∧ (workerFetch reqChat envB stA upOk).1.status = 200 := by
  refine ⟨by decide, rfl, rfl, rfl, rfl⟩


/-- C5 amended: only the health path discards the cached snapshot when the
configured URL differs and refetches from the configured URL; the chat path
serves whatever snapshot is cached regardless of the configured URL, and
fetches from the configured URL only when nothing is cached. -/
theorem index_url_policy (origin : Option String) (body : Option JVal) (env : WEnv)
    (st : WorkerState) (up : Upstream) :
    (st.indexUrl ≠ some env.INDEX_URL →
      (healthPath origin env st up).2.2 = [.indexFetch env.INDEX_URL]
      ∧ (healthPath origin env st up).2.1.indexUrl = some env.INDEX_URL
      ∧ (healthPath origin env st up).2.1.index
          = (match up.fetchIndexResult with | .ok i => some i | .error _ => none))
    ∧ (∀ idx, st.index = some idx →
        hasIndexFetch (chatPath origin body .POST env st up).2.2 = false
        ∧ (chatPath origin body .POST env st up).2.1.index = some idx)
    ∧ (st.index = none →
        (chatPath origin body .POST env st up).2.2.head? = some (.indexFetch env.INDEX_URL)) := by
  refine ⟨?_, ?_, ?_⟩
  · intro h
    unfold healthPath
    rw [if_pos h]
    cases hf : up.fetchIndexResult <;> simp [hf]
  · intro idx hidx
    unfold chatPath chatCore
    simp only [hidx]
    cases he : up.embedResult (userPromptFrom (jMessages body)) with
    | error e => simp [hasIndexFetch, hidx]
    | ok qEmb =>
      cases hc : up.chatResult (buildSystemPrompt env) (userPromptFrom (jMessages body))
          (buildRagContext (rank idx qEmb 3)) <;>
        simp [hc, hasIndexFetch, hidx]
  · intro h
    unfold chatPath chatCore
    simp only [h]
    cases hf : up.fetchIndexResult with
    | error e => simp [hf]
    | ok idx =>
      simp only [hf]
      cases he : up.embedResult (userPromptFrom (jMessages body)) with
      | error e => simp
      | ok qEmb =>
        cases hc : up.chatResult (buildSystemPrompt env) (userPromptFrom (jMessages body))
            (buildRagContext (rank idx qEmb 3)) <;> simp [hc]

/-- Witness for C5 amended: the health path on a URL change fetches from the
new URL; the chat path with a cached snapshot fetches nothing; the chat path
with an empty cache fetches first. -/
theorem index_url_policy_witness :
    (stA.indexUrl ≠ some envB.INDEX_URL
      ∧ (healthPath none envB stA upOk).2.2 = [.indexFetch envB.INDEX_URL]
      ∧ (healthPath none envB stA upOk).2.1.indexUrl = some envB.INDEX_URL)
    ∧ (stA.index = some idxA
      ∧ hasIndexFetch
          (chatPath none (some (.obj [("messages", .arr [])])) .POST envB stA upOk).2.2
        = false)
    ∧ (stErr.index = none
      ∧ (chatPath none (some (.obj [("messages", .arr [])])) .POST envB stErr upOk).2.2.head?
          = some (.indexFetch envB.INDEX_URL)) := by
  have hu : stA.indexUrl ≠ some envB.INDEX_URL := by decide
  have h1 := (index_url_policy none (some (.obj [("messages", .arr [])])) envB stA upOk).1 hu
  have h2 := (index_url_policy none (some (.obj [("messages", .arr [])])) envB stA upOk).2.1
    idxA rfl
  have h3 := (index_url_policy none (some (.obj [("messages", .arr [])])) envB stErr upOk).2.2
    rfl
  exact ⟨⟨hu, h1.1, h1.2.1⟩, ⟨rfl, h2.1⟩, ⟨rfl, h3⟩⟩

/-- Counterexample for C6: starting from a state whose `loadError` is set and
whose index is empty, a successful chat-path load installs the index and the
load time yet leaves `lastLoadError` set — the claim that no successful load
leaves it set fails. -/
theorem chat_load_keeps_error_cex :
    stErr.loadError = some "boom"
    ∧ (workerFetch reqChat envB stErr upOk).2.2.head? = some (.indexFetch envB.INDEX_URL)
    ∧ (workerFetch reqChat envB stErr upOk).2.1.index = some idxB
    ∧ (workerFetch reqChat envB stErr upOk).2.1.indexLoadedAt = some "t1"
    ∧ (workerFetch reqChat envB stErr upOk).2.1.loadError = some "boom" := by
  refine ⟨rfl, rfl, rfl, rfl, rfl⟩

/-- C6 amended: on the health path a successful load updates `loadedAt` and
clears `lastLoadError`, and a failed load sets `lastLoadError`; on the chat
path a successful load updates `loadedAt` but leaves `lastLoadError`
unchanged, and a failed load leaves the whole state unchanged (the error
becomes a 500 response instead of being recorded). -/
theorem load_state_updates (origin : Option String) (body : Option JVal) (env : WEnv)
    (st : WorkerState) (up : Upstream) :
    (∀ idx, up.fetchIndexResult = .ok idx → st.indexUrl = some env.INDEX_URL →
      st.index = none →
      (healthPath origin env st up).2.1.indexLoadedAt = some up.now
      ∧ (healthPath origin env st up).2.1.loadError = none)
    ∧ (∀ e, up.fetchIndexResult = .error e → st.indexUrl = some env.INDEX_URL →
      st.index = none →
      (healthPath origin env st up).2.1.loadError = some e)
    ∧ (∀ idx, up.fetchIndexResult = .ok idx → st.index = none →
      (chatPath origin body .POST env st up).2.1.indexLoadedAt = some up.now
      ∧ (chatPath origin body .POST env st up).2.1.loadError = st.loadError)
    ∧ (∀ e, up.fetchIndexResult = .error e → st.index = none →
      (chatPath origin body .POST env st up).2.1 = st) := by
  refine ⟨?_, ?_, ?_, ?_⟩
  · intro idx hf hu hi
    unfold healthPath
    rw [if_neg (by simp [hu])]
    simp [hi, hf]
  · intro e hf hu hi
    unfold healthPath
    rw [if_neg (by simp [hu])]
    simp [hi, hf]
  · intro idx hf hi
    unfold chatPath chatCore
    simp only [hi, hf]
    cases he : up.embedResult (userPromptFrom (jMessages body)) with
    | error e => simp
    | ok qEmb =>
      cases hc : up.chatResult (buildSystemPrompt env) (userPromptFrom (jMessages body))
          (buildRagContext (rank idx qEmb 3)) <;> simp [hc]
  · intro e hf hi
    unfold chatPath
    simp [hi, hf]

/-- Witness for C6 amended: all four load scenarios at concrete inputs. -/
theorem load_state_updates_witness :
    ((healthPath none envB stErr upOk).2.1.indexLoadedAt = some upOk.now
      ∧ (healthPath none envB stErr upOk).2.1.loadError = none)
    ∧ (healthPath none envB stErr upErr).2.1.loadError = some "down"
    ∧ ((chatPath none (some (.obj [("messages", .arr [])])) .POST envB stErr upOk).2.1.indexLoadedAt
          = some upOk.now
      ∧ (chatPath none (some (.obj [("messages", .arr [])])) .POST envB stErr upOk).2.1.loadError
          = stErr.loadError)
    ∧ (chatPath none (some (.obj [("messages", .arr [])])) .POST envB stErr upErr).2.1 = stErr := by
  have h1 := (load_state_updates none (some (.obj [("messages", .arr [])])) envB stErr upOk).1
    idxB rfl rfl rfl
  have h2 := (load_state_updates none (some (.obj [("messages", .arr [])])) envB stErr upErr).2.1
    "down" rfl rfl rfl
  have h3 := (load_state_updates none (some (.obj [("messages", .arr [])])) envB stErr upOk).2.2.1
    idxB rfl rfl
  have h4 := (load_state_updates none (some (.obj [("messages", .arr [])])) envB stErr upErr).2.2.2
    "down" rfl rfl
  exact ⟨h1, h2, h3, h4⟩

/-- C7: the health path is total — for every state and fetch outcome it
returns its 200 status report with `ok: true`; and whenever the index fetch
fails (and a load is actually attempted, i.e. no usable snapshot is cached),
the report's `rag.error` carries the failure message and `rag.loaded` is
`false`, instead of the error propagating. -/
theorem health_reports_without_raising (origin : Option String) (env : WEnv)
    (st : WorkerState) (up : Upstream) :
    (healthPath origin env st up).1.status = 200
    ∧ (∃ p, (healthPath origin env st up).1.body = .healthJson p ∧ p.ok = true)
    ∧ (∀ msg, up.fetchIndexResult = .error msg →
        (st.indexUrl ≠ some env.INDEX_URL ∨ st.index = none) →
        ∃ rep, ragOf (healthPath origin env st up).1 = some rep
          ∧ rep.error = some msg ∧ rep.loaded = false) := by
  refine ⟨rfl, ⟨_, rfl, rfl⟩, ?_⟩
  intro msg hf hcase
  unfold healthPath ragOf
  by_cases hu : st.indexUrl ≠ some env.INDEX_URL
  · rw [if_pos hu]
    simp [hf]
  · rw [if_neg hu]
    have hi : st.index = none := by
      rcases hcase with h | h
      · exact absurd h hu
      · exact h
    simp [hi, hf]

/-- Witness for C7: a failing fetch for the configured URL still yields the
200 report, with the failure message in `rag.error` and `rag.loaded = false`. -/
theorem health_reports_without_raising_witness :
    upErr.fetchIndexResult = .error "down"
    ∧ (healthPath none envB stErr upErr).1.status = 200
    ∧ ∃ rep, ragOf (healthPath none envB stErr upErr).1 = some rep
        ∧ rep.error = some "down" ∧ rep.loaded = false := by
  have h := health_reports_without_raising none envB stErr upErr
  exact ⟨rfl, h.1, h.2.2 "down" rfl (Or.inr rfl)⟩

/-- C8: for every non-preflight request, a missing `x-app-key` header and a
wrong-valued one produce the identical rejection (status 403, the same plain
text body, the same headers), the state is untouched and no upstream call is
made — the response does not distinguish missing from wrong. -/
theorem gate_uniform_rejection (req : WRequest) (env : WEnv) (st : WorkerState)
    (up : Upstream) (w : String)
    (hm : req.method ≠ .OPTIONS) (hw : w ≠ env.FRONTEND_APP_KEY) :
    workerFetch { req with appKey := none } env st up
      = workerFetch { req with appKey := some w } env st up
    ∧ (workerFetch { req with appKey := none } env st up).1
      = textError "Forbidden: bad or missing x-app-key" req.origin 403
    ∧ (workerFetch { req with appKey := none } env st up).2.1 = st
    ∧ (workerFetch { req with appKey := none } env st up).2.2 = [] := by
  have hk1 : keyOk none env.FRONTEND_APP_KEY = false := rfl
  have hk2 : keyOk (some w) env.FRONTEND_APP_KEY = false := by
    simp [keyOk, hw]
  unfold workerFetch
  simp [hm, hk1, hk2]

/-- Witness for C8: a chat request with no key and one with the wrong key
get byte-identical 403 rejections and trigger no upstream call. -/
theorem gate_uniform_rejection_witness :
    reqChat.method ≠ .OPTIONS
    ∧ "wrong" ≠ envB.FRONTEND_APP_KEY
    ∧ workerFetch { reqChat with appKey := none } envB stA upOk
        = workerFetch { reqChat with appKey := some "wrong" } envB stA upOk
    ∧ (workerFetch { reqChat with appKey := none } envB stA upOk).1
        = textError "Forbidden: bad or missing x-app-key" reqChat.origin 403
    ∧ (workerFetch { reqChat with appKey := none } envB stA upOk).2.2 = [] := by
  have h := gate_uniform_rejection reqChat envB stA upOk "wrong" (by decide) (by decide)
  exact ⟨by decide, by decide, h.1, h.2.1, h.2.2.2⟩

/-- The keys after `objSet`: unchanged when the key was present, else the
key is appended. -/
theorem objKeys_objSet (fields : List (String × JVal)) (k : String) (v : JVal) :
    objKeys (objSet fields k v)
      = if fields.any (fun p => p.1 == k) then objKeys fields
        else objKeys fields ++ [k] := by
  unfold objSet objKeys
  split
  · next hany =>
    rw [List.map_map]
    have hfun : ((fun p : String × JVal => p.1) ∘
        fun p : String × JVal => if p.1 == k then (k, v) else p)
        = fun p : String × JVal => p.1 := by
      funext p
      by_cases hpk : p.1 == k
      · have : p.1 = k := by simpa using hpk
        simp [hpk, this]
      · have hne : ¬ p.1 = k := by simpa using hpk
        simp [hpk, hne]
    rw [hfun]
  · next hany =>
    simp

/-- `objSet` never loses a key. -/
theorem mem_objKeys_objSet (fields : List (String × JVal)) (k k' : String) (v : JVal)
    (h : k' ∈ objKeys fields) : k' ∈ objKeys (objSet fields k v) := by
  rw [objKeys_objSet]
  split
  · exact h
  · exact List.mem_append_left _ h

/-- The assigned key is a key afterwards. -/
theorem self_mem_objKeys_objSet (fields : List (String × JVal)) (k : String) (v : JVal) :
    k ∈ objKeys (objSet fields k v) := by
  rw [objKeys_objSet]
  split
  · next hany =>
    simp only [List.any_eq_true] at hany
    obtain ⟨p, hp, hpk⟩ := hany
    have hk : p.1 = k := by simpa using hpk
    exact List.mem_map.mpr ⟨p, hp, hk⟩
  · exact List.mem_append_right _ (List.mem_singleton_self k)

/-- A binding at a different key survives `objSet` unchanged. -/
theorem mem_objSet_of_ne (fields : List (String × JVal)) (k k' : String) (v v' : JVal)
    (h : (k, v) ∈ fields) (hne : k ≠ k') : (k, v) ∈ objSet fields k' v' := by
  unfold objSet
  split
  · have heq : (if (k, v).1 == k' then (k', v') else (k, v)) = (k, v) := by
      simp [hne]
    exact heq ▸ List.mem_map_of_mem _ h
  · exact List.mem_append_left _ h

/-- C9: the merged chat payload keeps every upstream field name; every
upstream binding outside the four overridden keys (`model`, `ragUsed`,
`ragChars`, `ragCitations`) survives with its value; and the three retrieval
metadata fields are merged in. -/
theorem merged_keeps_upstream_fields (openai : List (String × JVal)) (envModel : Option String)
    (ragUsed : Bool) (ragChars : Nat) (cites : JVal) :
    (∀ k, k ∈ objKeys openai →
      k ∈ objKeys (mergedPayload openai envModel ragUsed ragChars cites))
    ∧ (∀ k v, (k, v) ∈ openai →
        k ∉ (["model", "ragUsed", "ragChars", "ragCitations"] : List String) →
        (k, v) ∈ mergedPayload openai envModel ragUsed ragChars cites)
    ∧ "ragUsed" ∈ objKeys (mergedPayload openai envModel ragUsed ragChars cites)
    ∧ "ragChars" ∈ objKeys (mergedPayload openai envModel ragUsed ragChars cites)
    ∧ "ragCitations" ∈ objKeys (mergedPayload openai envModel ragUsed ragChars cites) := by
  unfold mergedPayload
  refine ⟨?_, ?_, ?_, ?_, ?_⟩
  · intro k hk
    exact mem_objKeys_objSet _ _ _ _ (mem_objKeys_objSet _ _ _ _
      (mem_objKeys_objSet _ _ _ _ (mem_objKeys_objSet _ _ _ _ hk)))
  · intro k v hkv hnot
    simp only [List.mem_cons, List.not_mem_nil, or_false, not_or] at hnot
    obtain ⟨h1, h2, h3, h4⟩ := hnot
    exact mem_objSet_of_ne _ _ _ _ _ (mem_objSet_of_ne _ _ _ _ _
      (mem_objSet_of_ne _ _ _ _ _ (mem_objSet_of_ne _ _ _ _ _ hkv h1) h2) h3) h4
  · exact mem_objKeys_objSet _ _ _ _ (mem_objKeys_objSet _ _ _ _
      (self_mem_objKeys_objSet _ _ _))
  · exact mem_objKeys_objSet _ _ _ _ (self_mem_objKeys_objSet _ _ _)
  · exact self_mem_objKeys_objSet _ _ _

/-- Witness for C9: a concrete upstream payload keeps its `id` binding and
gains `ragCitations`. -/
theorem merged_keeps_upstream_fields_witness :
    "id" ∈ objKeys [("id", JVal.str "x"), ("model", JVal.str "m")]
    ∧ ("id", JVal.str "x")
        ∈ mergedPayload [("id", JVal.str "x"), ("model", JVal.str "m")] none true 2 (JVal.arr [])
    ∧ "ragCitations"
        ∈ objKeys (mergedPayload [("id", JVal.str "x"), ("model", JVal.str "m")] none true 2
            (JVal.arr [])) := by
  have hk : "id" ∈ objKeys [("id", JVal.str "x"), ("model", JVal.str "m")] := by
    simp [objKeys]
  have h := merged_keeps_upstream_fields [("id", JVal.str "x"), ("model", JVal.str "m")]
    none true 2 (JVal.arr [])
  exact ⟨hk, h.2.1 "id" (JVal.str "x") (List.mem_cons_self _ _) (by decide), h.2.2.2.2⟩

/-- `chatPath` depends on the request body only through the extracted
message list. -/
theorem chatPath_body_congr (origin : Option String) (b1 b2 : Option JVal) (m : Method)
    (env : WEnv) (st : WorkerState) (up : Upstream) (h : jMessages b1 = jMessages b2) :
    chatPath origin b1 m env st up = chatPath origin b2 m env st up := by
  unfold chatPath
  rw [h]

/-- C10: an unparseable chat body behaves exactly like a well-formed body
with an empty `messages` array, as does any JSON object without a
`messages` member: the history is empty, the retrieval query is the empty
string, and (with an index cached) the pipeline proceeds straight to
embedding that empty string. -/
theorem chat_body_parse_fallback (origin : Option String) (env : WEnv)
    (st : WorkerState) (up : Upstream) :
    chatPath origin none .POST env st up
      = chatPath origin (some (.obj [("messages", .arr [])])) .POST env st up
    ∧ (∀ fields, objGet fields "messages" = none →
        chatPath origin (some (.obj fields)) .POST env st up
          = chatPath origin (some (.obj [("messages", .arr [])])) .POST env st up)
    ∧ jMessages none = []
    ∧ userPromptFrom [] = ""
    ∧ (∀ idx, st.index = some idx →
        (chatPath origin none .POST env st up).2.2.head? = some (.embed "")) := by
  refine ⟨chatPath_body_congr origin none _ .POST env st up rfl, ?_, rfl, rfl, ?_⟩
  · intro fields h
    apply chatPath_body_congr
    simp only [jMessages, h]
    rfl
  · intro idx hidx
    unfold chatPath chatCore
    simp only [hidx]
    have hq : userPromptFrom (jMessages none) = "" := rfl
    rw [hq]
    cases he : up.embedResult "" with
    | error e => simp
    | ok qEmb =>
      cases hc : up.chatResult (buildSystemPrompt env) ""
          (buildRagContext (rank idx qEmb 3)) <;> simp [hc]

/-- Witness for C10: a body without `messages` runs identically to the
empty-history body, and the unparseable body proceeds to embed `""`. -/
theorem chat_body_parse_fallback_witness :
    objGet [("x", JVal.null)] "messages" = none
    ∧ chatPath none (some (.obj [("x", JVal.null)])) .POST envB stA upOk
        = chatPath none (some (.obj [("messages", .arr [])])) .POST envB stA upOk
    ∧ stA.index = some idxA
    ∧ (chatPath none none .POST envB stA upOk).2.2.head? = some (.embed "") := by
  have h := chat_body_parse_fallback none envB stA upOk
  exact ⟨rfl, h.2.1 [("x", JVal.null)] rfl, rfl, h.2.2.2.2 idxA rfl⟩

end CW
